import Mathlib

/-!
Verification development for the Grbl stepper execution core
(src/archive/stepper_time.c).

The C source is shallowly embedded: machine integers become Nat/Int
(with explicit wrap where the C type wraps), C floats used by the
foreground preparer become exact rationals, and the stepper ISR and
its ring buffer become explicit state-passing functions.  Definition
names follow the source where Lean allows it.
-/

set_option maxHeartbeats 1000000

namespace GrblStepper

/-! ### Compile-time constants (stepper_time.c lines 36-49) -/

def LOAD_NOOP : ℕ := 0

def LOAD_SEGMENT : ℕ := 1

def LOAD_BLOCK : ℕ := 2

def SEGMENT_BUFFER_SIZE : ℕ := 6

def MINIMUM_STEPS_PER_SEGMENT : ℕ := 1

/-- Embedding of line 49: `#define DT_SEGMENT
ACCELERATION_TICKS_PER_SECOND/ISR_TICKS_PER_SECOND`.  The two
configuration constants live in the missing config.h, so the macro is
modelled as a function of their (rational) values. -/
def DT_SEGMENT (accel_ticks_per_second isr_ticks_per_second : ℚ) : ℚ :=
  accel_ticks_per_second / isr_ticks_per_second

/-- Modelled from the spec: the derived constant `TICKS_PER_ACCEL_TICK`
(`ISR_TICKS_PER_ACCELERATION_TICK` of the missing config.h), the number
of ISR ticks in one acceleration tick, `ISR_TICKS_PER_SECOND /
ACCELERATION_TICKS_PER_SECOND`. -/
def TICKS_PER_ACCEL_TICK (accel_ticks_per_second isr_ticks_per_second : ℚ) : ℚ :=
  isr_ticks_per_second / accel_ticks_per_second

/-! ### Preparer segment emission (st_prep_buffer, lines 714-733)

During one planner block the preparer repeatedly computes a new
(fractional) `steps_remaining` value from the old
`step_events_remaining` and emits one segment per iteration; line 733
then stores `step_events_remaining = steps_remaining`.  The emitted
step count depends only on those two numbers, so the emission is
embedded as functions of them. -/

/-- Embedding of line 717: mid-block segment step count
`n_step = ceil(step_events_remaining) - ceil(steps_remaining)`
(the `steps_remaining > 0` branch). -/
def segment_n_step_mid (step_events_remaining steps_remaining : ℚ) : ℤ :=
  ⌈step_events_remaining⌉ - ⌈steps_remaining⌉

/-- Embedding of line 723: final (end-of-block) segment step count
`n_step = ceil(step_events_remaining)` (the `steps_remaining <= 0`
branch, which the kinematics enters with `steps_remaining = 0`). -/
def segment_n_step_end (step_events_remaining : ℚ) : ℤ :=
  ⌈step_events_remaining⌉

/-- One emitted segment, reduced to the fields the sum invariant is
about (`n_step` and the `SEGMENT_END_OF_BLOCK` flag, lines 714-730). -/
structure PrepSegment where
  n_step : ℤ
  end_of_block : Bool
deriving DecidableEq

/-- Embedding of the emission branch at lines 714-730: if
`steps_remaining > 0` emit a mid-block segment, else emit the final
segment flagged `SEGMENT_END_OF_BLOCK`. -/
def prepEmit (step_events_remaining steps_remaining : ℚ) : PrepSegment :=
  if 0 < steps_remaining then
    ⟨segment_n_step_mid step_events_remaining steps_remaining, false⟩
  else
    ⟨segment_n_step_end step_events_remaining, true⟩

/-- Segments emitted while consuming one planner block whose successive
intermediate `steps_remaining` values are `rs` (each produced by the
kinematics at lines 628-700), starting from `step_events_remaining`
and ending with the kinematics reaching `steps_remaining = 0`.
Line 733 threads the state: each emission's `step_events_remaining` is
the previous emission's `steps_remaining`. -/
def blockSegments : ℚ → List ℚ → List PrepSegment
  | ser, [] => [prepEmit ser 0]
  | ser, sr :: rest => prepEmit ser sr :: blockSegments sr rest

/-- Telescoping sum of the emitted step counts over one block. -/
lemma blockSegments_sum_n_step (ser : ℚ) (rs : List ℚ)
    (hpos : ∀ r ∈ rs, 0 < r) :
    ((blockSegments ser rs).map PrepSegment.n_step).sum = ⌈ser⌉ := by
  induction rs generalizing ser with
  | nil =>
      simp [blockSegments, prepEmit, segment_n_step_end]
  | cons r rest ih =>
      have hr : 0 < r := hpos r (List.mem_cons_self r rest)
      have hrest : ∀ x ∈ rest, 0 < x := fun x hx => hpos x (List.mem_cons_of_mem r hx)
      simp only [blockSegments, prepEmit, if_pos hr, List.map_cons, List.sum_cons,
        segment_n_step_mid]
      rw [ih r hrest]
      ring

/-- C1: for every planner block consumed by the preparer (starting with
`step_events_remaining = step_event_count`, line 537), the sum of
`n_step` over all segments emitted for that block equals
`⌈step_event_count⌉` exactly: each non-final segment contributes
`⌈step_events_remaining⌉ - ⌈steps_remaining⌉`, the final
`END_OF_BLOCK` segment contributes `⌈step_events_remaining⌉`, and
`step_events_remaining` is updated to `steps_remaining` after each
segment. -/
theorem C1_block_n_step_sum (step_event_count : ℕ) (rs : List ℚ)
    (hpos : ∀ r ∈ rs, 0 < r) :
    ((blockSegments (step_event_count : ℚ) rs).map PrepSegment.n_step).sum
      = (step_event_count : ℤ) := by
  rw [blockSegments_sum_n_step _ _ hpos]
  exact_mod_cast Int.ceil_natCast step_event_count

/-- Witness for C1 at a concrete block: `step_event_count = 5`,
intermediate remainders `7/2` then `2`. -/
theorem C1_block_n_step_sum_witness :
    ((blockSegments ((5 : ℕ) : ℚ) [7/2, 2]).map PrepSegment.n_step).sum = ((5 : ℕ) : ℤ) :=
  C1_block_n_step_sum 5 [7/2, 2] (by intro r hr; fin_cases hr <;> norm_num)

/-- C4 counterexample: the claim asserts `n_step ≥ 1` whenever
`steps_remaining > 0`, but with `step_events_remaining = 21/2` and
`steps_remaining = 51/5` (a reachable slow-rate prep step: the segment
consumes only `3/10` of a step event) the emitted
`n_step = ⌈21/2⌉ - ⌈51/5⌉ = 11 - 11 = 0`, and
`MINIMUM_STEPS_PER_SEGMENT` is never enforced in the source. -/
theorem C4_n_step_zero_counterexample :
    (0 : ℚ) < 51/5 ∧ segment_n_step_mid (21/2) (51/5) = 0 := by
  constructor
  · norm_num
  · unfold segment_n_step_mid
    have h1 : ⌈(21/2 : ℚ)⌉ = 11 := by rw [Int.ceil_eq_iff]; norm_num
    have h2 : ⌈(51/5 : ℚ)⌉ = 11 := by rw [Int.ceil_eq_iff]; norm_num
    omega

/-- C4 amended: the preparer guarantees only `n_step ≥ 0` for mid-block
segments (when `0 < steps_remaining ≤ step_events_remaining`), and
`n_step ≥ 1` for the final end-of-block segment of a block with
`step_events_remaining > 0`; `n_step = 0` mid-block segments are
possible because `MINIMUM_STEPS_PER_SEGMENT` (line 45) is declared but
never enforced. -/
theorem C4_n_step_bounds (ser sr : ℚ) :
    (0 < sr → sr ≤ ser → 0 ≤ segment_n_step_mid ser sr) ∧
    (0 < ser → 1 ≤ segment_n_step_end ser) := by
  constructor
  · intro _ hle
    have := Int.ceil_le_ceil (α := ℚ) hle
    unfold segment_n_step_mid
    omega
  · intro hser
    unfold segment_n_step_end
    have : (0 : ℤ) < ⌈ser⌉ := Int.ceil_pos.mpr hser
    omega

/-- Witness for C4 amended at `ser = 21/2`, `sr = 51/5`. -/
theorem C4_n_step_bounds_witness :
    0 ≤ segment_n_step_mid (21/2) (51/5) ∧ 1 ≤ segment_n_step_end (21/2) :=
  ⟨(C4_n_step_bounds (21/2) (51/5)).1 (by norm_num) (by norm_num),
   (C4_n_step_bounds (21/2) (51/5)).2 (by norm_num)⟩

/-- C5: the source (line 49) defines `DT_SEGMENT =
ACCELERATION_TICKS_PER_SECOND/ISR_TICKS_PER_SECOND`, which at the
stock configuration values (`ACCELERATION_TICKS_PER_SECOND = 120`,
`ISR_TICKS_PER_SECOND = 30000`) evaluates to `1/250` s, whereas the
claimed value `TICKS_PER_ACCEL_TICK / ISR_TICKS_PER_SECOND =
1/ACCELERATION_TICKS_PER_SECOND` evaluates to `1/120` s: the code
computes the reciprocal of the specified duration ratio. -/
theorem C5_dt_segment_mismatch :
    DT_SEGMENT 120 30000 = 1/250 ∧
    TICKS_PER_ACCEL_TICK 120 30000 / 30000 = 1/120 ∧
    TICKS_PER_ACCEL_TICK 120 30000 / 30000 = 1/(120 : ℚ) ∧
    DT_SEGMENT 120 30000 ≠ TICKS_PER_ACCEL_TICK 120 30000 / 30000 := by
  refine ⟨by norm_num [DT_SEGMENT], by norm_num [TICKS_PER_ACCEL_TICK],
    by norm_num [TICKS_PER_ACCEL_TICK], by norm_num [DT_SEGMENT, TICKS_PER_ACCEL_TICK]⟩

/-! ### Planner block (planner.h, external read-only input; §3 of the spec) -/

/-- Planner block fields read by stepper_time.c.  Step counts are the
unsigned `steps[]`/`step_event_count`; direction bits are one flag per
axis; the trajectory fields are floats, embedded as rationals. -/
structure PlanBlock where
  steps_x : ℕ
  steps_y : ℕ
  steps_z : ℕ
  step_event_count : ℕ
  dir_x : Bool
  dir_y : Bool
  dir_z : Bool
  millimeters : ℚ
  entry_speed_sqr : ℚ
  nominal_speed_sqr : ℚ
  acceleration : ℚ
deriving DecidableEq

/-! ### Shared per-block stepper data (st_data_t, lines 76-88) -/

/-- Foreground view of `st_data_t` (float fields as rationals;
`dist_per_step` is a fixed-point uint32). -/
structure StPrepData where
  dist_per_step : ℤ
  step_events_remaining : ℚ
  accelerate_until : ℚ
  decelerate_after : ℚ
  current_rate : ℚ
  maximum_rate : ℚ
  exit_rate : ℚ
  acceleration : ℚ
  step_per_mm : ℚ
deriving DecidableEq

/-- Foreground preparer state touched by
`st_fetch_partial_block_parameters` (lines 114-118): the prep-block
pointer, the prepped shared data, the prep index, and the
partial-block flag. -/
structure PrepState where
  pl_prep_block : Option PlanBlock
  st_prep_data : StPrepData
  pl_prep_index : ℕ
  pl_part_block_flag : Bool
deriving DecidableEq

/-- Embedding of `st_fetch_partial_block_parameters` (lines 753-775).
The C function writes through the two out-pointers
`millimeters_remaining` and `is_decelerating`; the embedding takes
their caller-side values and returns their final values alongside the
new preparer state.  (The C identifier ends in
`..._partial_block_parameters`; the flag/function names are shortened
to `part` here.) -/
def st_fetch_part_block_parameters (s : PrepState)
    (millimeters_remaining : ℚ) (is_decelerating : Bool) :
    PrepState × ℚ × Bool :=
  match s.pl_prep_block with
  | some _ =>
      ({ s with pl_part_block_flag := true, pl_prep_block := none },
       s.st_prep_data.step_events_remaining / s.st_prep_data.step_per_mm,
       decide (s.st_prep_data.step_events_remaining < s.st_prep_data.decelerate_after))
  | none => (s, millimeters_remaining, is_decelerating)

/-- C10: if `st_fetch_partial_block_parameters` is called when no
planner block is being prepped (`pl_prep_block == NULL`), it writes
neither output parameter, does not set `pl_partial_block_flag`, and
leaves all preparer state unchanged (the function is the identity on
state and outputs). -/
theorem C10_fetch_no_prep_block (s : PrepState) (mm : ℚ) (dec : Bool)
    (h : s.pl_prep_block = none) :
    st_fetch_part_block_parameters s mm dec = (s, mm, dec) := by
  unfold st_fetch_part_block_parameters
  rw [h]

/-- Witness for C10 at a concrete preparer state with no prep block. -/
theorem C10_fetch_no_prep_block_witness :
    st_fetch_part_block_parameters
      ⟨none, ⟨100, 50, 10, 20, 30, 40, 0, 5, 2⟩, 3, false⟩ (7/2) true
      = (⟨none, ⟨100, 50, 10, 20, 30, 40, 0, 5, 2⟩, 3, false⟩, 7/2, true) :=
  C10_fetch_no_prep_block ⟨none, ⟨100, 50, 10, 20, 30, 40, 0, 5, 2⟩, 3, false⟩ (7/2) true rfl

/-! ### Segment ring buffer indices (lines 102-105, 327, 361-363, 498, 739-740)

The three index variables and their updates are embedded as a small
state machine: `ringReset` is the re-initialization in `st_reset`,
`ringPublish` is the commit step of `st_prep_buffer` (guarded by the
while-loop condition `segment_buffer_tail != segment_next_head`),
`ringConsume` is the tail advance at segment completion in the ISR
(guarded by a loaded — hence unconsumed — segment, which requires
`segment_buffer_head != segment_buffer_tail`). -/

/-- Ring-buffer index state. -/
structure RingState where
  segment_buffer_tail : ℕ
  segment_buffer_head : ℕ
  segment_next_head : ℕ
deriving DecidableEq

/-- Embedding of `st_reset` lines 361-363. -/
def ringReset : RingState := ⟨0, 0, 1⟩

/-- Embedding of the publish step, lines 739-740:
`segment_buffer_head = segment_next_head; if (++segment_next_head ==
SEGMENT_BUFFER_SIZE) { segment_next_head = 0; }`. -/
def ringPublish (r : RingState) : RingState :=
  ⟨r.segment_buffer_tail, r.segment_next_head,
   (r.segment_next_head + 1) % SEGMENT_BUFFER_SIZE⟩

/-- Embedding of the consume step, line 327:
`if ( ++segment_buffer_tail == SEGMENT_BUFFER_SIZE) {
segment_buffer_tail = 0; }`. -/
def ringConsume (r : RingState) : RingState :=
  ⟨(r.segment_buffer_tail + 1) % SEGMENT_BUFFER_SIZE,
   r.segment_buffer_head, r.segment_next_head⟩

/-- Number of unconsumed segments in the ring. -/
def ringCount (r : RingState) : ℕ :=
  (r.segment_buffer_head + SEGMENT_BUFFER_SIZE - r.segment_buffer_tail)
    % SEGMENT_BUFFER_SIZE

/-- Ring-buffer index states reachable from `st_reset` by guarded
publishes (the `st_prep_buffer` while loop publishes only while
`segment_buffer_tail != segment_next_head`) and guarded consumes (the
ISR advances `segment_buffer_tail` only at completion of a loaded
segment, loaded when `segment_buffer_head != segment_buffer_tail`). -/
inductive RingReachable : RingState → Prop
  | reset : RingReachable ringReset
  | publish {r : RingState} : RingReachable r →
      r.segment_buffer_tail ≠ r.segment_next_head → RingReachable (ringPublish r)
  | consume {r : RingState} : RingReachable r →
      r.segment_buffer_head ≠ r.segment_buffer_tail → RingReachable (ringConsume r)

/-- Structural ring invariant: indices in range and
`next_head = (head+1) mod N`. -/
def RingInv (r : RingState) : Prop :=
  r.segment_buffer_tail < SEGMENT_BUFFER_SIZE ∧
  r.segment_buffer_head < SEGMENT_BUFFER_SIZE ∧
  r.segment_next_head = (r.segment_buffer_head + 1) % SEGMENT_BUFFER_SIZE

lemma ringInv_reachable {r : RingState} (h : RingReachable r) : RingInv r := by
  induction h with
  | reset => norm_num [RingInv, ringReset, SEGMENT_BUFFER_SIZE]
  | publish _ hg ih =>
      simp only [RingInv, ringPublish, SEGMENT_BUFFER_SIZE, and_true, true_and] at *
      omega
  | consume _ hg ih =>
      simp only [RingInv, ringConsume, SEGMENT_BUFFER_SIZE, and_true, true_and] at *
      omega

/-- C7: the segment ring buffer maintains, at every observable moment
(every state reachable from `st_reset` by guarded publish/consume
steps): head and tail in `[0, SEGMENT_BUFFER_SIZE)`,
`segment_next_head = (head+1) mod SEGMENT_BUFFER_SIZE`, the buffer is
empty iff `head = tail`, it is full iff `next_head = tail`, and the
count of buffered segments is at most `SEGMENT_BUFFER_SIZE - 1` — so
every call to `st_prep_buffer` (whose publishes are all guarded by
`tail != next_head`) leaves at most `SEGMENT_BUFFER_SIZE - 1` segments
in the buffer; and `st_reset` re-establishes
`head = tail = 0, next_head = 1`. -/
theorem C7_ring_invariant (r : RingState) (h : RingReachable r) :
    r.segment_buffer_tail < SEGMENT_BUFFER_SIZE ∧
    r.segment_buffer_head < SEGMENT_BUFFER_SIZE ∧
    r.segment_next_head = (r.segment_buffer_head + 1) % SEGMENT_BUFFER_SIZE ∧
    (ringCount r = 0 ↔ r.segment_buffer_head = r.segment_buffer_tail) ∧
    (ringCount r = SEGMENT_BUFFER_SIZE - 1 ↔
      r.segment_next_head = r.segment_buffer_tail) ∧
    ringCount r ≤ SEGMENT_BUFFER_SIZE - 1 ∧
    ringReset = ⟨0, 0, 1⟩ := by
  obtain ⟨ht, hh, hn⟩ := ringInv_reachable h
  refine ⟨ht, hh, hn, ?_, ?_, ?_, rfl⟩
  · simp only [ringCount, SEGMENT_BUFFER_SIZE] at *
    omega
  · simp only [ringCount, SEGMENT_BUFFER_SIZE] at *
    omega
  · simp only [ringCount, SEGMENT_BUFFER_SIZE] at *
    omega

/-- Witness for C7 at a concrete reachable state: reset, two publishes,
one consume. -/
theorem C7_ring_invariant_witness :
    let r := ringConsume (ringPublish (ringPublish ringReset))
    r.segment_buffer_tail < SEGMENT_BUFFER_SIZE ∧
    r.segment_buffer_head < SEGMENT_BUFFER_SIZE ∧
    r.segment_next_head = (r.segment_buffer_head + 1) % SEGMENT_BUFFER_SIZE ∧
    (ringCount r = 0 ↔ r.segment_buffer_head = r.segment_buffer_tail) ∧
    (ringCount r = SEGMENT_BUFFER_SIZE - 1 ↔
      r.segment_next_head = r.segment_buffer_tail) ∧
    ringCount r ≤ SEGMENT_BUFFER_SIZE - 1 ∧
    ringReset = ⟨0, 0, 1⟩ :=
  C7_ring_invariant _
    (RingReachable.consume
      (RingReachable.publish (RingReachable.publish RingReachable.reset (by decide))
        (by decide))
      (by decide))

/-! ### Stepping port bits

The bit positions `X_STEP_BIT`, ..., `Z_DIRECTION_BIT` live in the
missing pin-map header, so the packed `out_bits` byte is embedded
structurally: one Boolean per step bit and one per direction bit.
`xor`/`or` on the byte become componentwise Boolean operations. -/

/-- Stepping-port bit pattern (three step bits, three direction bits). -/
structure OutBits where
  sx : Bool
  sy : Bool
  sz : Bool
  dx : Bool
  dy : Bool
  dz : Bool
deriving DecidableEq

/-- Componentwise xor on port bit patterns (the C `^` on the byte). -/
def OutBits.bxor (a b : OutBits) : OutBits :=
  ⟨xor a.sx b.sx, xor a.sy b.sy, xor a.sz b.sz,
   xor a.dx b.dx, xor a.dy b.dy, xor a.dz b.dz⟩

/-- Direction-bits byte of a planner block (`block->direction_bits`):
direction flags in the direction positions, step positions clear. -/
def PlanBlock.direction_bits (b : PlanBlock) : OutBits :=
  ⟨false, false, false, b.dir_x, b.dir_y, b.dir_z⟩

/-! ### Executor-side buffers (st_segment_t lines 93-100, st_data_t) -/

/-- Embedding of `st_segment_t` (lines 93-99).  `flag` is reduced to
its only used bit, `SEGMENT_END_OF_BLOCK`. -/
structure StSegment where
  n_step : ℕ
  n_phase_tick : ℕ
  dist_per_tick : ℤ
  st_data_index : ℕ
  end_of_block : Bool
deriving DecidableEq

/-- Executor view of `st_data_t`: the only field the ISR reads is the
fixed-point `dist_per_step` (line 260, 280). -/
structure StData where
  dist_per_step : ℤ
deriving DecidableEq

/-- Embedding of `stepper_t` (lines 52-69).  `step_count` and
`phase_count` are uint8: `phase_count` is decremented without a guard
at line 329, so its decrement wraps modulo 256; `step_count` is
decremented only under the `step_count > 0` guard.  `step_pulse_time`
is timer preload data with no logical content and is omitted. -/
structure StepperSt where
  counter_x : ℤ
  counter_y : ℤ
  counter_z : ℤ
  counter_dist : ℤ
  step_count : ℕ
  phase_count : ℕ
  execute_step : Bool
  out_bits : OutBits
  load_flag : ℕ
deriving DecidableEq

/-- System state constants.  Modelled from the spec: the `STATE_*`
values live in the missing system header; only their distinctness is
used here. -/
def STATE_IDLE : ℕ := 1

def STATE_QUEUED : ℕ := 2

def STATE_CYCLE : ℕ := 3

def STATE_HOLD : ℕ := 4

/-- System-global state touched by the ISR: `sys.state`, the
`EXEC_CYCLE_STOP` bit of `sys.execute`, and `sys.position[]`. -/
structure SysState where
  state : ℕ
  exec_cycle_stop : Bool
  position_x : ℤ
  position_y : ℤ
  position_z : ℤ
deriving DecidableEq

/-- Whole-machine state for the stepper ISR: the `stepper_t` state, the
system globals, the segment ring buffer (contents as a function of the
index, plus the head/tail indices), the shared-data table, the pointers
`st_current_segment`/`st_current_data` (embedded as indices, bound at
segment load), the planner queue (blocks by index, with
`plan_discard_current_block` advancing the index), the bound
`pl_current_block`, the `busy` flag and the Timer2 interrupt-enable
bit. -/
structure Machine where
  st : StepperSt
  sys : SysState
  busy : Bool
  timer_enabled : Bool
  segment_buffer : ℕ → StSegment
  segment_data : ℕ → StData
  segment_buffer_tail : ℕ
  segment_buffer_head : ℕ
  cur_seg : ℕ
  cur_dat : ℕ
  plan : ℕ → PlanBlock
  plan_idx : ℕ
  pl_current_block : PlanBlock

/-! ### The Stepper Driver Interrupt, ISR(TIMER2_COMPA_vect), lines 216-335 -/

/-- Per-axis Bresenham event body (lines 286-292 for X, and the
identical Y/Z blocks): subtract `steps[axis]` from the counter; on
wrap, add back `step_event_count`, flag the axis step bit, and move
`sys.position[axis]` one count in the direction given by the raw
direction bit. -/
structure AxisOut where
  c : ℤ
  pos : ℤ
  fired : Bool
deriving DecidableEq

/-- Axis update of one Bresenham step event. -/
def axisEvent (steps n : ℤ) (dir : Bool) (c pos : ℤ) : AxisOut :=
  if c - steps < 0 then
    ⟨c - steps + n, if dir then pos - 1 else pos + 1, true⟩
  else
    ⟨c - steps, pos, false⟩

/-- Embedding of the Bresenham step-event body, lines 280-311 (the
branch taken when `counter_dist < 0` and `step_count > 0`): reload the
inverse-time counter, rebuild `out_bits` from the raw direction bits,
run the three axis updates, decrement `step_count`, and apply the
step-port invert mask. -/
def stepEventExec (invert : OutBits) (m : Machine) : Machine :=
  let blk := m.pl_current_block
  let n : ℤ := blk.step_event_count
  let ax := axisEvent blk.steps_x n blk.dir_x m.st.counter_x m.sys.position_x
  let ay := axisEvent blk.steps_y n blk.dir_y m.st.counter_y m.sys.position_y
  let az := axisEvent blk.steps_z n blk.dir_z m.st.counter_z m.sys.position_z
  let ob : OutBits := ⟨ax.fired, ay.fired, az.fired, blk.dir_x, blk.dir_y, blk.dir_z⟩
  { m with
    st := { m.st with
      counter_dist := m.st.counter_dist + (m.segment_data m.cur_dat).dist_per_step,
      counter_x := ax.c, counter_y := ay.c, counter_z := az.c,
      step_count := m.st.step_count - 1,
      execute_step := true,
      out_bits := OutBits.bxor ob invert },
    sys := { m.sys with
      position_x := ax.pos, position_y := ay.pos, position_z := az.pos } }

/-- Embedding of the segment-load phase body, lines 240-263 (taken when
`load_flag != LOAD_NOOP` and the buffer is non-empty): bind
`st_current_segment` to the tail slot (tail itself is not advanced),
load `step_count = n_step`, and on `LOAD_BLOCK` additionally bind the
planner block and shared data, set the direction bits (xor invert
mask), flag `execute_step`, reset the Bresenham counters to
`step_event_count >> 1`, and seed `counter_dist = dist_per_step`.
Note that `st.phase_count` is not assigned anywhere in this phase. -/
def loadSegment (invert : OutBits) (m : Machine) : Machine :=
  let seg := m.segment_buffer m.segment_buffer_tail
  let m1 := { m with
    cur_seg := m.segment_buffer_tail,
    st := { m.st with step_count := seg.n_step } }
  let m2 :=
    if m1.st.load_flag = LOAD_BLOCK then
      let blk := m1.plan m1.plan_idx
      { m1 with
        pl_current_block := blk,
        cur_dat := seg.st_data_index,
        st := { m1.st with
          out_bits := OutBits.bxor blk.direction_bits invert,
          execute_step := true,
          counter_x := ((blk.step_event_count / 2 : ℕ) : ℤ),
          counter_y := ((blk.step_event_count / 2 : ℕ) : ℤ),
          counter_z := ((blk.step_event_count / 2 : ℕ) : ℤ),
          counter_dist := (m1.segment_data seg.st_data_index).dist_per_step } }
    else m1
  { m2 with st := { m2.st with load_flag := LOAD_NOOP } }

/-- Embedding of the segment-completion check, lines 315-330: when
`step_count == 0` and `phase_count == 0`, set the next load flag
(discarding the planner block on `SEGMENT_END_OF_BLOCK`) and advance
the tail; then decrement `phase_count` (uint8, wrapping 0 to 255). -/
def segmentCompletion (m : Machine) : Machine :=
  if m.st.step_count = 0 then
    let m1 :=
      if m.st.phase_count = 0 then
        let m2 :=
          if (m.segment_buffer m.cur_seg).end_of_block then
            { m with plan_idx := m.plan_idx + 1,
                     st := { m.st with load_flag := LOAD_BLOCK } }
          else
            { m with st := { m.st with load_flag := LOAD_SEGMENT } }
        { m2 with segment_buffer_tail :=
            (m2.segment_buffer_tail + 1) % SEGMENT_BUFFER_SIZE }
      else m
    { m1 with st := { m1.st with phase_count := (m1.st.phase_count + 255) % 256 } }
  else m

/-- Embedding of the execution phase, lines 274-330: decrement the
inverse-time counter by the current segment's `dist_per_tick`, execute
a Bresenham step event when it crosses zero (and steps remain), then
run the completion check. -/
def execPhase (invert : OutBits) (m : Machine) : Machine :=
  let m1 := { m with st := { m.st with
    counter_dist := m.st.counter_dist - (m.segment_buffer m.cur_seg).dist_per_tick } }
  let m2 :=
    if m1.st.counter_dist < 0 then
      if 0 < m1.st.step_count then stepEventExec invert m1 else m1
    else m1
  segmentCompletion m2

/-- Embedding of `st_go_idle` (lines 165-183) as it acts on the modelled
state: disable the Timer2 interrupt and clear `busy`.  (The optional
idle-lock dwell and stepper-disable port writes touch only hardware
registers outside the model; `sys.state` is not modified.) -/
def st_go_idle (m : Machine) : Machine :=
  { m with timer_enabled := false, busy := false }

/-- Embedding of one ISR tick, lines 216-335.  Returns the new machine
state and the port write performed at the top of the tick (lines
223-228: the deferred latch of `out_bits`, `none` when no write
happens).  The `busy` flag causes an immediate return; `sei()` and the
Timer0 pulse-reset arming are outside the model. -/
def isrTick (invert : OutBits) (m : Machine) : Machine × Option OutBits :=
  if m.busy then (m, none) else
  let port : Option OutBits := if m.st.execute_step then some m.st.out_bits else none
  let m1 := if m.st.execute_step
    then { m with st := { m.st with execute_step := false } } else m
  if m1.st.load_flag ≠ LOAD_NOOP then
    if m1.segment_buffer_head ≠ m1.segment_buffer_tail then
      (execPhase invert (loadSegment invert m1), port)
    else
      let m2 := st_go_idle m1
      ({ m2 with sys := { m2.sys with exec_cycle_stop := true } }, port)
  else
    (execPhase invert m1, port)

/-! ### Concrete machine states used as inputs below -/

/-- All-zero port pattern (an invert mask of 0). -/
def zeroBits : OutBits := ⟨false, false, false, false, false, false⟩

/-- Sample planner block: steps (3,2,1), `step_event_count = 3`,
Z negative, 10 mm, entry 0, nominal 100, acceleration 4. -/
def demoBlock : PlanBlock :=
  ⟨3, 2, 1, 3, false, false, true, 10, 0, 100, 4⟩

/-- Machine state at a segment boundary: the previous segment just
completed (`load_flag = LOAD_SEGMENT`, `step_count = 0`,
`phase_count = 0`), and the segment at the tail has `n_step = 2` and
`n_phase_tick = 5`. -/
def c3Machine : Machine where
  st := { counter_x := 1, counter_y := 1, counter_z := 1, counter_dist := 100,
          step_count := 0, phase_count := 0, execute_step := false,
          out_bits := zeroBits, load_flag := LOAD_SEGMENT }
  sys := { state := STATE_CYCLE, exec_cycle_stop := false,
           position_x := 0, position_y := 0, position_z := 0 }
  busy := false
  timer_enabled := true
  segment_buffer := fun _ => ⟨2, 5, 10, 0, false⟩
  segment_data := fun _ => ⟨1000⟩
  segment_buffer_tail := 0
  segment_buffer_head := 1
  cur_seg := 0
  cur_dat := 0
  plan := fun _ => demoBlock
  plan_idx := 0
  pl_current_block := demoBlock

/-- C3 (failing-input evaluation): the claim says the segment-load
phase loads both `step_count = n_step` and `phase_count =
n_phase_tick`.  Running one ISR tick on `c3Machine` (buffer non-empty,
`load_flag != NOOP`, tail segment has `n_phase_tick = 5`) loads
`step_count = 2` and completes the load (`load_flag = NOOP`, tail not
advanced), but leaves `phase_count = 0`, not `5`: the ISR never reads
`n_phase_tick` anywhere (the preparer stores it at lines 718/724 and
no code loads it), so the trailing phase ticks before the tail advance
are governed by the stale wrapped `phase_count`, not by
`n_phase_tick`. -/
theorem C3_phase_count_never_loaded :
    (c3Machine.segment_buffer c3Machine.segment_buffer_tail).n_phase_tick = 5 ∧
    (isrTick zeroBits c3Machine).1.st.step_count = 2 ∧
    (isrTick zeroBits c3Machine).1.st.load_flag = LOAD_NOOP ∧
    (isrTick zeroBits c3Machine).1.segment_buffer_tail = 0 ∧
    (isrTick zeroBits c3Machine).1.st.phase_count = 0 ∧
    (isrTick zeroBits c3Machine).1.st.phase_count ≠ 5 := by
  refine ⟨rfl, rfl, rfl, rfl, rfl, ?_⟩
  decide

/-- Machine state for a buffer underrun: a cycle is active
(`sys.state = STATE_CYCLE`), a segment or block load is pending, and
the segment buffer is empty (`head = tail`). -/
def c8Machine : Machine :=
  { c3Machine with
    segment_buffer_head := 0,
    st := { c3Machine.st with load_flag := LOAD_BLOCK } }

/-- C8 counterexample: the claim says the ISR "transitions the system
to IDLE" on underrun, but the ISR (and `st_go_idle`) never write
`sys.state`: after the underrun tick the state is still `STATE_CYCLE`
(the foreground performs the IDLE transition when it services
`EXEC_CYCLE_STOP`). -/
theorem C8_underrun_state_counterexample :
    c8Machine.st.load_flag ≠ LOAD_NOOP ∧
    c8Machine.segment_buffer_head = c8Machine.segment_buffer_tail ∧
    c8Machine.sys.state = STATE_CYCLE ∧
    (isrTick zeroBits c8Machine).1.sys.state = STATE_CYCLE ∧
    STATE_CYCLE ≠ STATE_IDLE := by
  refine ⟨?_, rfl, rfl, rfl, ?_⟩ <;> decide

/-- C8 amended: if the ISR runs with `load_flag != NOOP` and finds the
segment buffer empty, it calls `st_go_idle` (disabling the stepper
timer), sets `EXEC_CYCLE_STOP` for the foreground (which is
responsible for the IDLE transition — `sys.state` itself is left
unchanged by the ISR), and returns without executing any Bresenham
step event, without advancing the tail, and without modifying the
Bresenham or inverse-time counters (and with no port write in that
tick when no pulse was already pending). -/
theorem C8_underrun_goes_idle (invert : OutBits) (m : Machine)
    (hb : m.busy = false) (hl : m.st.load_flag ≠ LOAD_NOOP)
    (he : m.segment_buffer_head = m.segment_buffer_tail) :
    (isrTick invert m).1.sys.exec_cycle_stop = true ∧
    (isrTick invert m).1.timer_enabled = false ∧
    (isrTick invert m).1.sys.state = m.sys.state ∧
    (isrTick invert m).1.segment_buffer_tail = m.segment_buffer_tail ∧
    (isrTick invert m).1.st.counter_x = m.st.counter_x ∧
    (isrTick invert m).1.st.counter_y = m.st.counter_y ∧
    (isrTick invert m).1.st.counter_z = m.st.counter_z ∧
    (isrTick invert m).1.st.counter_dist = m.st.counter_dist ∧
    (isrTick invert m).1.st.step_count = m.st.step_count ∧
    (isrTick invert m).1.st.phase_count = m.st.phase_count ∧
    (isrTick invert m).1.sys.position_x = m.sys.position_x ∧
    (isrTick invert m).1.sys.position_y = m.sys.position_y ∧
    (isrTick invert m).1.sys.position_z = m.sys.position_z ∧
    (m.st.execute_step = false → (isrTick invert m).2 = none) := by
  by_cases hex : m.st.execute_step <;>
    simp [isrTick, st_go_idle, hb, hl, he, hex]

/-- Witness for C8 amended at the concrete underrun machine. -/
theorem C8_underrun_goes_idle_witness :
    (isrTick zeroBits c8Machine).1.sys.exec_cycle_stop = true ∧
    (isrTick zeroBits c8Machine).1.timer_enabled = false ∧
    (isrTick zeroBits c8Machine).1.sys.state = c8Machine.sys.state ∧
    (isrTick zeroBits c8Machine).1.segment_buffer_tail = c8Machine.segment_buffer_tail ∧
    (isrTick zeroBits c8Machine).1.st.counter_x = c8Machine.st.counter_x ∧
    (isrTick zeroBits c8Machine).1.st.counter_y = c8Machine.st.counter_y ∧
    (isrTick zeroBits c8Machine).1.st.counter_z = c8Machine.st.counter_z ∧
    (isrTick zeroBits c8Machine).1.st.counter_dist = c8Machine.st.counter_dist ∧
    (isrTick zeroBits c8Machine).1.st.step_count = c8Machine.st.step_count ∧
    (isrTick zeroBits c8Machine).1.st.phase_count = c8Machine.st.phase_count ∧
    (isrTick zeroBits c8Machine).1.sys.position_x = c8Machine.sys.position_x ∧
    (isrTick zeroBits c8Machine).1.sys.position_y = c8Machine.sys.position_y ∧
    (isrTick zeroBits c8Machine).1.sys.position_z = c8Machine.sys.position_z ∧
    (c8Machine.st.execute_step = false → (isrTick zeroBits c8Machine).2 = none) :=
  C8_underrun_goes_idle zeroBits c8Machine rfl (by decide) rfl

/-- Port write of a non-reentered ISR tick: the deferred latch of
`out_bits` flagged on the previous tick (lines 223-228), independent of
the rest of the tick. -/
lemma isrTick_snd (invert : OutBits) (m : Machine) (hb : m.busy = false) :
    (isrTick invert m).2 =
      if m.st.execute_step then some m.st.out_bits else none := by
  by_cases hex : m.st.execute_step <;>
    by_cases hl : m.st.load_flag ≠ LOAD_NOOP <;>
      by_cases he : m.segment_buffer_head ≠ m.segment_buffer_tail <;>
        simp [isrTick, hb, hex, hl, he]

/-- C9: on a `LOAD_BLOCK` tick (buffer non-empty, no pulse pending),
the ISR sets `out_bits` to the block's direction bits xor the invert
mask and flags `execute_step`; no Bresenham step event runs during the
load tick (given the seeding invariant `dist_per_tick ≤
dist_per_step`, line 260 comment, and `n_step ≥ 1`), no port write
happens during it, and the very next tick latches exactly the
direction bits — a pattern whose step bits equal the invert mask, i.e.
all step lines idle.  Hence the direction bits are stable on the port
from one tick after the load, strictly before any tick that can drive
a step bit high (the earliest step event is in the latch tick itself
and its pulse is latched one tick later). -/
theorem C9_direction_latch_before_step (invert : OutBits) (m : Machine)
    (hb : m.busy = false) (hex : m.st.execute_step = false)
    (hl : m.st.load_flag = LOAD_BLOCK)
    (hne : m.segment_buffer_head ≠ m.segment_buffer_tail)
    (hns : 0 < (m.segment_buffer m.segment_buffer_tail).n_step)
    (hdpt : (m.segment_buffer m.segment_buffer_tail).dist_per_tick ≤
      (m.segment_data
        (m.segment_buffer m.segment_buffer_tail).st_data_index).dist_per_step) :
    (isrTick invert m).2 = none ∧
    (isrTick invert m).1.st.execute_step = true ∧
    (isrTick invert m).1.st.out_bits =
      OutBits.bxor (m.plan m.plan_idx).direction_bits invert ∧
    ((isrTick invert m).1.st.out_bits).sx = invert.sx ∧
    ((isrTick invert m).1.st.out_bits).sy = invert.sy ∧
    ((isrTick invert m).1.st.out_bits).sz = invert.sz ∧
    (isrTick invert m).1.sys.position_x = m.sys.position_x ∧
    (isrTick invert m).1.sys.position_y = m.sys.position_y ∧
    (isrTick invert m).1.sys.position_z = m.sys.position_z ∧
    (isrTick invert (isrTick invert m).1).2 =
      some (OutBits.bxor (m.plan m.plan_idx).direction_bits invert) := by
  have hstep : (isrTick invert m).1 =
      execPhase invert (loadSegment invert m) := by
    simp [isrTick, hb, hex, hl, LOAD_BLOCK, LOAD_NOOP, hne]
  have hload : loadSegment invert m =
      { m with
        cur_seg := m.segment_buffer_tail,
        pl_current_block := m.plan m.plan_idx,
        cur_dat := (m.segment_buffer m.segment_buffer_tail).st_data_index,
        st := { m.st with
          step_count := (m.segment_buffer m.segment_buffer_tail).n_step,
          out_bits := OutBits.bxor (m.plan m.plan_idx).direction_bits invert,
          execute_step := true,
          counter_x := (((m.plan m.plan_idx).step_event_count / 2 : ℕ) : ℤ),
          counter_y := (((m.plan m.plan_idx).step_event_count / 2 : ℕ) : ℤ),
          counter_z := (((m.plan m.plan_idx).step_event_count / 2 : ℕ) : ℤ),
          counter_dist := (m.segment_data
            (m.segment_buffer m.segment_buffer_tail).st_data_index).dist_per_step,
          load_flag := LOAD_NOOP } } := by
    simp [loadSegment, hl, LOAD_BLOCK]
  have hexec : (isrTick invert m).1 =
      { m with
        cur_seg := m.segment_buffer_tail,
        pl_current_block := m.plan m.plan_idx,
        cur_dat := (m.segment_buffer m.segment_buffer_tail).st_data_index,
        st := { m.st with
          step_count := (m.segment_buffer m.segment_buffer_tail).n_step,
          out_bits := OutBits.bxor (m.plan m.plan_idx).direction_bits invert,
          execute_step := true,
          counter_x := (((m.plan m.plan_idx).step_event_count / 2 : ℕ) : ℤ),
          counter_y := (((m.plan m.plan_idx).step_event_count / 2 : ℕ) : ℤ),
          counter_z := (((m.plan m.plan_idx).step_event_count / 2 : ℕ) : ℤ),
          counter_dist := (m.segment_data
            (m.segment_buffer m.segment_buffer_tail).st_data_index).dist_per_step
            - (m.segment_buffer m.segment_buffer_tail).dist_per_tick,
          load_flag := LOAD_NOOP } } := by
    have h1 : ¬ ((m.segment_data
        (m.segment_buffer m.segment_buffer_tail).st_data_index).dist_per_step
        - (m.segment_buffer m.segment_buffer_tail).dist_per_tick < 0) := by omega
    have h2 : ¬ ((m.segment_buffer m.segment_buffer_tail).n_step = 0) := by omega
    rw [hstep, hload]
    simp [execPhase, segmentCompletion, h1, h2]
  refine ⟨?_, ?_, ?_, ?_, ?_, ?_, ?_, ?_, ?_, ?_⟩
  · rw [isrTick_snd invert m hb, hex]
    simp
  · rw [hexec]
  · rw [hexec]
  · rw [hexec]; simp [OutBits.bxor, PlanBlock.direction_bits]
  · rw [hexec]; simp [OutBits.bxor, PlanBlock.direction_bits]
  · rw [hexec]; simp [OutBits.bxor, PlanBlock.direction_bits]
  · rw [hexec]
  · rw [hexec]
  · rw [hexec]
  · rw [isrTick_snd invert (isrTick invert m).1 (by rw [hexec]; exact hb),
      hexec]
    simp

/-- Machine state about to load a new block: like `c3Machine` but with
`load_flag = LOAD_BLOCK`. -/
def c9Machine : Machine :=
  { c3Machine with st := { c3Machine.st with load_flag := LOAD_BLOCK } }

/-- Witness for C9 at the concrete block-load machine. -/
theorem C9_direction_latch_before_step_witness :
    (isrTick zeroBits c9Machine).2 = none ∧
    (isrTick zeroBits c9Machine).1.st.execute_step = true ∧
    (isrTick zeroBits c9Machine).1.st.out_bits =
      OutBits.bxor (c9Machine.plan c9Machine.plan_idx).direction_bits zeroBits ∧
    ((isrTick zeroBits c9Machine).1.st.out_bits).sx = zeroBits.sx ∧
    ((isrTick zeroBits c9Machine).1.st.out_bits).sy = zeroBits.sy ∧
    ((isrTick zeroBits c9Machine).1.st.out_bits).sz = zeroBits.sz ∧
    (isrTick zeroBits c9Machine).1.sys.position_x = c9Machine.sys.position_x ∧
    (isrTick zeroBits c9Machine).1.sys.position_y = c9Machine.sys.position_y ∧
    (isrTick zeroBits c9Machine).1.sys.position_z = c9Machine.sys.position_z ∧
    (isrTick zeroBits (isrTick zeroBits c9Machine).1).2 =
      some (OutBits.bxor (c9Machine.plan c9Machine.plan_idx).direction_bits zeroBits) :=
  C9_direction_latch_before_step zeroBits c9Machine rfl rfl rfl
    (by decide) (by decide) (by decide)

/-! ### Exactness of the per-axis Bresenham (C2)

Across one planner block the ISR executes exactly
`step_event_count` Bresenham step events (the segments of the block
partition them, claim C1); the event body is `stepEventExec`.  The
per-axis arithmetic is analysed through the pure `axisRun` below and
connected to the ISR body by projection lemmas. -/

/-- Counter and position of one Bresenham axis. -/
structure AxisState where
  c : ℤ
  pos : ℤ
deriving DecidableEq

/-- k-fold iteration of the per-axis event body, returning the final
axis state and the number of events in which the axis fired (step bit
asserted). -/
def axisRun (steps n : ℤ) (dir : Bool) : ℕ → AxisState → AxisState × ℕ
  | 0, a => (a, 0)
  | k+1, a =>
      let e := axisEvent steps n dir a.c a.pos
      let r := axisRun steps n dir k ⟨e.c, e.pos⟩
      (r.1, r.2 + e.fired.toNat)

/-- Unfolding equation for one step of `axisRun`. -/
lemma axisRun_succ (steps n : ℤ) (dir : Bool) (k : ℕ) (a : AxisState) :
    axisRun steps n dir (k+1) a
      = ((axisRun steps n dir k ⟨(axisEvent steps n dir a.c a.pos).c,
            (axisEvent steps n dir a.c a.pos).pos⟩).1,
         (axisRun steps n dir k ⟨(axisEvent steps n dir a.c a.pos).c,
            (axisEvent steps n dir a.c a.pos).pos⟩).2
           + (axisEvent steps n dir a.c a.pos).fired.toNat) := rfl

/-- Bresenham axis invariant: starting from a counter in `[0, n)` with
`0 ≤ steps ≤ n`, after `k` events the counter satisfies
`c_k = c_0 - k·steps + fired·n`, stays in `[0, n)`, and the position
has moved by `fired` counts in the direction `dir`. -/
lemma axisRun_invariant (steps n : ℤ) (dir : Bool)
    (hs0 : 0 ≤ steps) (hsn : steps ≤ n) :
    ∀ (k : ℕ) (a : AxisState), 0 ≤ a.c → a.c < n →
      (axisRun steps n dir k a).1.c
          = a.c - k * steps + ((axisRun steps n dir k a).2 : ℤ) * n ∧
      0 ≤ (axisRun steps n dir k a).1.c ∧
      (axisRun steps n dir k a).1.c < n ∧
      (axisRun steps n dir k a).1.pos
          = (if dir then a.pos - ((axisRun steps n dir k a).2 : ℤ)
             else a.pos + ((axisRun steps n dir k a).2 : ℤ)) := by
  intro k
  induction k with
  | zero =>
      intro a h0 h1
      refine ⟨by simp [axisRun], by simpa [axisRun] using h0,
        by simpa [axisRun] using h1, ?_⟩
      cases dir <;> simp [axisRun]
  | succ k ih =>
      intro a h0 h1
      by_cases hc : a.c - steps < 0
      · have he : axisEvent steps n dir a.c a.pos
            = ⟨a.c - steps + n, if dir then a.pos - 1 else a.pos + 1, true⟩ := by
          simp [axisEvent, hc]
        obtain ⟨ihc, ihl, ihr, ihp⟩ :=
          ih ⟨a.c - steps + n, if dir then a.pos - 1 else a.pos + 1⟩
            (by show (0:ℤ) ≤ a.c - steps + n; omega)
            (by show a.c - steps + n < n; omega)
        simp only [axisRun_succ, he, Bool.toNat_true] at *
        refine ⟨?_, ihl, ihr, ?_⟩
        · rw [ihc]
          push_cast
          ring
        · rw [ihp]
          cases dir <;> simp <;> omega
      · have he : axisEvent steps n dir a.c a.pos
            = ⟨a.c - steps, a.pos, false⟩ := by
          simp [axisEvent, hc]
        obtain ⟨ihc, ihl, ihr, ihp⟩ :=
          ih ⟨a.c - steps, a.pos⟩
            (by show (0:ℤ) ≤ a.c - steps; omega)
            (by show a.c - steps < n; omega)
        simp only [axisRun_succ, he, Bool.toNat_false] at *
        refine ⟨?_, ihl, ihr, ?_⟩
        · rw [ihc]
          push_cast
          ring
        · rw [ihp]
          cases dir <;> simp

/-- Running exactly `n` events from the midpoint seed `n / 2` fires the
axis exactly `steps` times and moves the position by exactly `steps`
counts in direction `dir`. -/
lemma axisRun_count (steps n : ℕ) (dir : Bool) (hn : 0 < n)
    (hsn : steps ≤ n) (p : ℤ) :
    (axisRun steps n dir n ⟨((n / 2 : ℕ) : ℤ), p⟩).2 = steps ∧
    (axisRun steps n dir n ⟨((n / 2 : ℕ) : ℤ), p⟩).1.pos
      = (if dir then p - steps else p + steps) := by
  have hs0 : (0 : ℤ) ≤ (steps : ℤ) := by positivity
  have hsn' : (steps : ℤ) ≤ (n : ℤ) := by exact_mod_cast hsn
  have hc0 : (0 : ℤ) ≤ ((n / 2 : ℕ) : ℤ) := by positivity
  have hc1 : ((n / 2 : ℕ) : ℤ) < (n : ℤ) := by
    have : n / 2 < n := Nat.div_lt_self hn (by norm_num)
    exact_mod_cast this
  obtain ⟨hC, hl, hr, hp⟩ := axisRun_invariant steps n dir hs0 hsn' n
    ⟨((n / 2 : ℕ) : ℤ), p⟩ hc0 hc1
  set t := (axisRun steps n dir n ⟨((n / 2 : ℕ) : ℤ), p⟩).2 with ht
  set C := (axisRun steps n dir n ⟨((n / 2 : ℕ) : ℤ), p⟩).1.c with hCdef
  have hC2 : C = ((n / 2 : ℕ) : ℤ) - (n : ℤ) * steps + (t : ℤ) * n := hC
  have key : ((t : ℤ) - steps) * n = C - ((n / 2 : ℕ) : ℤ) := by
    linear_combination -hC2
  have hts : (t : ℤ) = (steps : ℤ) := by
    rcases lt_trichotomy ((t : ℤ) - steps) 0 with hlt | heq | hgt
    · exfalso
      have h1 : (t : ℤ) - steps ≤ -1 := by omega
      have h2 : ((t : ℤ) - steps) * n ≤ (-1) * n :=
        mul_le_mul_of_nonneg_right h1 (by positivity)
      omega
    · omega
    · exfalso
      have h1 : (1 : ℤ) ≤ (t : ℤ) - steps := by omega
      have h2 : (1 : ℤ) * n ≤ ((t : ℤ) - steps) * n :=
        mul_le_mul_of_nonneg_right h1 (by positivity)
      omega
  have htn : t = steps := by exact_mod_cast hts
  refine ⟨htn, ?_⟩
  rw [hp, htn]

/-- k-fold iteration of the ISR Bresenham step-event body (the `k`
successive step events a block execution performs). -/
def stepEventIter (invert : OutBits) : ℕ → Machine → Machine
  | 0, m => m
  | k+1, m => stepEventIter invert k (stepEventExec invert m)

/-- Number of the next `k` step events in which the X step bit is
asserted (the X axis fires). -/
def stepTallyX (invert : OutBits) : ℕ → Machine → ℕ
  | 0, _ => 0
  | k+1, m =>
      (axisEvent m.pl_current_block.steps_x m.pl_current_block.step_event_count
        m.pl_current_block.dir_x m.st.counter_x m.sys.position_x).fired.toNat
      + stepTallyX invert k (stepEventExec invert m)

/-- Number of the next `k` step events in which the Y step bit is
asserted. -/
def stepTallyY (invert : OutBits) : ℕ → Machine → ℕ
  | 0, _ => 0
  | k+1, m =>
      (axisEvent m.pl_current_block.steps_y m.pl_current_block.step_event_count
        m.pl_current_block.dir_y m.st.counter_y m.sys.position_y).fired.toNat
      + stepTallyY invert k (stepEventExec invert m)

/-- Number of the next `k` step events in which the Z step bit is
asserted. -/
def stepTallyZ (invert : OutBits) : ℕ → Machine → ℕ
  | 0, _ => 0
  | k+1, m =>
      (axisEvent m.pl_current_block.steps_z m.pl_current_block.step_event_count
        m.pl_current_block.dir_z m.st.counter_z m.sys.position_z).fired.toNat
      + stepTallyZ invert k (stepEventExec invert m)

/-- X components of the iterated ISR event body coincide with the pure
axis run (the three axes do not interact, lines 286-306). -/
lemma stepEventIter_proj_x (invert : OutBits) :
    ∀ (k : ℕ) (m : Machine),
      (stepEventIter invert k m).st.counter_x
          = (axisRun m.pl_current_block.steps_x m.pl_current_block.step_event_count
              m.pl_current_block.dir_x k ⟨m.st.counter_x, m.sys.position_x⟩).1.c ∧
      (stepEventIter invert k m).sys.position_x
          = (axisRun m.pl_current_block.steps_x m.pl_current_block.step_event_count
              m.pl_current_block.dir_x k ⟨m.st.counter_x, m.sys.position_x⟩).1.pos ∧
      stepTallyX invert k m
          = (axisRun m.pl_current_block.steps_x m.pl_current_block.step_event_count
              m.pl_current_block.dir_x k ⟨m.st.counter_x, m.sys.position_x⟩).2 := by
  intro k
  induction k with
  | zero => intro m; exact ⟨rfl, rfl, rfl⟩
  | succ k ih =>
      intro m
      obtain ⟨ih1, ih2, ih3⟩ := ih (stepEventExec invert m)
      refine ⟨?_, ?_, ?_⟩
      · rw [show stepEventIter invert (k+1) m
            = stepEventIter invert k (stepEventExec invert m) from rfl, ih1]
        simp [stepEventExec, axisRun]
      · rw [show stepEventIter invert (k+1) m
            = stepEventIter invert k (stepEventExec invert m) from rfl, ih2]
        simp [stepEventExec, axisRun]
      · rw [show stepTallyX invert (k+1) m
            = (axisEvent m.pl_current_block.steps_x m.pl_current_block.step_event_count
                m.pl_current_block.dir_x m.st.counter_x m.sys.position_x).fired.toNat
              + stepTallyX invert k (stepEventExec invert m) from rfl, ih3]
        simp [stepEventExec, axisRun]
        omega

/-- Y components of the iterated ISR event body coincide with the pure
axis run. -/
lemma stepEventIter_proj_y (invert : OutBits) :
    ∀ (k : ℕ) (m : Machine),
      (stepEventIter invert k m).st.counter_y
          = (axisRun m.pl_current_block.steps_y m.pl_current_block.step_event_count
              m.pl_current_block.dir_y k ⟨m.st.counter_y, m.sys.position_y⟩).1.c ∧
      (stepEventIter invert k m).sys.position_y
          = (axisRun m.pl_current_block.steps_y m.pl_current_block.step_event_count
              m.pl_current_block.dir_y k ⟨m.st.counter_y, m.sys.position_y⟩).1.pos ∧
      stepTallyY invert k m
          = (axisRun m.pl_current_block.steps_y m.pl_current_block.step_event_count
              m.pl_current_block.dir_y k ⟨m.st.counter_y, m.sys.position_y⟩).2 := by
  intro k
  induction k with
  | zero => intro m; exact ⟨rfl, rfl, rfl⟩
  | succ k ih =>
      intro m
      obtain ⟨ih1, ih2, ih3⟩ := ih (stepEventExec invert m)
      refine ⟨?_, ?_, ?_⟩
      · rw [show stepEventIter invert (k+1) m
            = stepEventIter invert k (stepEventExec invert m) from rfl, ih1]
        simp [stepEventExec, axisRun]
      · rw [show stepEventIter invert (k+1) m
            = stepEventIter invert k (stepEventExec invert m) from rfl, ih2]
        simp [stepEventExec, axisRun]
      · rw [show stepTallyY invert (k+1) m
            = (axisEvent m.pl_current_block.steps_y m.pl_current_block.step_event_count
                m.pl_current_block.dir_y m.st.counter_y m.sys.position_y).fired.toNat
              + stepTallyY invert k (stepEventExec invert m) from rfl, ih3]
        simp [stepEventExec, axisRun]
        omega

/-- Z components of the iterated ISR event body coincide with the pure
axis run. -/
lemma stepEventIter_proj_z (invert : OutBits) :
    ∀ (k : ℕ) (m : Machine),
      (stepEventIter invert k m).st.counter_z
          = (axisRun m.pl_current_block.steps_z m.pl_current_block.step_event_count
              m.pl_current_block.dir_z k ⟨m.st.counter_z, m.sys.position_z⟩).1.c ∧
      (stepEventIter invert k m).sys.position_z
          = (axisRun m.pl_current_block.steps_z m.pl_current_block.step_event_count
              m.pl_current_block.dir_z k ⟨m.st.counter_z, m.sys.position_z⟩).1.pos ∧
      stepTallyZ invert k m
          = (axisRun m.pl_current_block.steps_z m.pl_current_block.step_event_count
              m.pl_current_block.dir_z k ⟨m.st.counter_z, m.sys.position_z⟩).2 := by
  intro k
  induction k with
  | zero => intro m; exact ⟨rfl, rfl, rfl⟩
  | succ k ih =>
      intro m
      obtain ⟨ih1, ih2, ih3⟩ := ih (stepEventExec invert m)
      refine ⟨?_, ?_, ?_⟩
      · rw [show stepEventIter invert (k+1) m
            = stepEventIter invert k (stepEventExec invert m) from rfl, ih1]
        simp [stepEventExec, axisRun]
      · rw [show stepEventIter invert (k+1) m
            = stepEventIter invert k (stepEventExec invert m) from rfl, ih2]
        simp [stepEventExec, axisRun]
      · rw [show stepTallyZ invert (k+1) m
            = (axisEvent m.pl_current_block.steps_z m.pl_current_block.step_event_count
                m.pl_current_block.dir_z m.st.counter_z m.sys.position_z).fired.toNat
              + stepTallyZ invert k (stepEventExec invert m) from rfl, ih3]
        simp [stepEventExec, axisRun]
        omega

/-- C2: across one block's `step_event_count` Bresenham step events
(the ISR event body at lines 279-311), starting from the per-axis
counters initialized to `step_event_count / 2` (integer halving, lines
255-257), each axis asserts its step bit in exactly `steps[axis]`
events, and `sys.position[axis]` moves by exactly `steps[axis]` counts
in the direction given by the block's direction bit — given the
planner contract `steps[axis] ≤ step_event_count` and a nonempty
block. -/
theorem C2_bresenham_exact (invert : OutBits) (m : Machine)
    (hN : 0 < m.pl_current_block.step_event_count)
    (hx : m.pl_current_block.steps_x ≤ m.pl_current_block.step_event_count)
    (hy : m.pl_current_block.steps_y ≤ m.pl_current_block.step_event_count)
    (hz : m.pl_current_block.steps_z ≤ m.pl_current_block.step_event_count)
    (hcx : m.st.counter_x = ((m.pl_current_block.step_event_count / 2 : ℕ) : ℤ))
    (hcy : m.st.counter_y = ((m.pl_current_block.step_event_count / 2 : ℕ) : ℤ))
    (hcz : m.st.counter_z = ((m.pl_current_block.step_event_count / 2 : ℕ) : ℤ)) :
    stepTallyX invert m.pl_current_block.step_event_count m
        = m.pl_current_block.steps_x ∧
    stepTallyY invert m.pl_current_block.step_event_count m
        = m.pl_current_block.steps_y ∧
    stepTallyZ invert m.pl_current_block.step_event_count m
        = m.pl_current_block.steps_z ∧
    (stepEventIter invert m.pl_current_block.step_event_count m).sys.position_x
        = (if m.pl_current_block.dir_x
           then m.sys.position_x - m.pl_current_block.steps_x
           else m.sys.position_x + m.pl_current_block.steps_x) ∧
    (stepEventIter invert m.pl_current_block.step_event_count m).sys.position_y
        = (if m.pl_current_block.dir_y
           then m.sys.position_y - m.pl_current_block.steps_y
           else m.sys.position_y + m.pl_current_block.steps_y) ∧
    (stepEventIter invert m.pl_current_block.step_event_count m).sys.position_z
        = (if m.pl_current_block.dir_z
           then m.sys.position_z - m.pl_current_block.steps_z
           else m.sys.position_z + m.pl_current_block.steps_z) := by
  obtain ⟨px1, px2, px3⟩ :=
    stepEventIter_proj_x invert m.pl_current_block.step_event_count m
  obtain ⟨py1, py2, py3⟩ :=
    stepEventIter_proj_y invert m.pl_current_block.step_event_count m
  obtain ⟨pz1, pz2, pz3⟩ :=
    stepEventIter_proj_z invert m.pl_current_block.step_event_count m
  obtain ⟨cx, posx⟩ := axisRun_count m.pl_current_block.steps_x
    m.pl_current_block.step_event_count m.pl_current_block.dir_x hN hx m.sys.position_x
  obtain ⟨cy, posy⟩ := axisRun_count m.pl_current_block.steps_y
    m.pl_current_block.step_event_count m.pl_current_block.dir_y hN hy m.sys.position_y
  obtain ⟨cz, posz⟩ := axisRun_count m.pl_current_block.steps_z
    m.pl_current_block.step_event_count m.pl_current_block.dir_z hN hz m.sys.position_z
  rw [hcx] at px1 px2 px3
  rw [hcy] at py1 py2 py3
  rw [hcz] at pz1 pz2 pz3
  exact ⟨px3.trans cx, py3.trans cy, pz3.trans cz,
    px2.trans posx, py2.trans posy, pz2.trans posz⟩

/-- Witness for C2 at `demoBlock` (steps (3,2,1), `step_event_count =
3`, Z negative) from counters seeded at `3 / 2 = 1`: tallies (3,2,1)
and positions (+3,+2,-1). -/
theorem C2_bresenham_exact_witness :
    stepTallyX zeroBits 3 c3Machine = 3 ∧
    stepTallyY zeroBits 3 c3Machine = 2 ∧
    stepTallyZ zeroBits 3 c3Machine = 1 ∧
    (stepEventIter zeroBits 3 c3Machine).sys.position_x = 0 + (3 : ℕ) ∧
    (stepEventIter zeroBits 3 c3Machine).sys.position_y = 0 + (2 : ℕ) ∧
    (stepEventIter zeroBits 3 c3Machine).sys.position_z = 0 - (1 : ℕ) := by
  have h := C2_bresenham_exact zeroBits c3Machine (by decide) (by decide)
    (by decide) (by decide) rfl rfl rfl
  simpa using h

/-! ### Velocity-profile classification (st_prep_buffer, lines 560-597, 615-617) -/

/-- Velocity-profile parameters produced by the classification.
`max_rate_sqr` holds the argument of the `sqrt()` call in the source,
so `maximum_rate = √max_rate_sqr` before scaling; since the final
`*= step_per_mm` scaling of `maximum_rate` (line 615) is the monotone
injective map `r ↦ step_per_mm·√r` on nonnegative arguments, two
classifications agree on the claimed `maximum_rate` iff they agree on
`max_rate_sqr`. -/
structure Profile where
  accelerate_until : ℚ
  decelerate_after : ℚ
  max_rate_sqr : ℚ
deriving DecidableEq

/-- Embedding of the profile classification, lines 560-597 (the
decision tree over `entry_speed_sqr`, `nominal_speed_sqr`,
`exit_speed_sqr`, `intersection_dist`), followed by the
`*= step_per_mm` scaling of lines 616-617 applied to
`accelerate_until` and `decelerate_after` (`maximum_rate` is kept as
its squared, unscaled value, see `Profile`). -/
def profileClassify (b : PlanBlock) (exit_speed_sqr step_per_mm : ℚ) : Profile :=
  let p : Profile :=
    if b.entry_speed_sqr = b.nominal_speed_sqr then
      if exit_speed_sqr = b.nominal_speed_sqr then
        ⟨b.millimeters, 0, b.nominal_speed_sqr⟩
      else
        ⟨b.millimeters,
         (b.nominal_speed_sqr - exit_speed_sqr)/(2*b.acceleration),
         b.nominal_speed_sqr⟩
    else if exit_speed_sqr = b.nominal_speed_sqr then
      ⟨b.millimeters - (b.nominal_speed_sqr - b.entry_speed_sqr)/(2*b.acceleration),
       0, b.nominal_speed_sqr⟩
    else
      let intersection_dist :=
        (1/2) * (b.millimeters
          + (b.entry_speed_sqr - exit_speed_sqr)/(2*b.acceleration))
      if 0 < intersection_dist then
        if intersection_dist < b.millimeters then
          let decelerate_after :=
            (b.nominal_speed_sqr - exit_speed_sqr)/(2*b.acceleration)
          if decelerate_after < intersection_dist then
            ⟨b.millimeters
               - (b.nominal_speed_sqr - b.entry_speed_sqr)/(2*b.acceleration),
             decelerate_after, b.nominal_speed_sqr⟩
          else
            ⟨b.millimeters - intersection_dist, intersection_dist,
             2*b.acceleration*intersection_dist + exit_speed_sqr⟩
        else
          ⟨b.millimeters, b.millimeters, b.entry_speed_sqr⟩
      else
        ⟨0, 0, exit_speed_sqr⟩
  ⟨p.accelerate_until * step_per_mm, p.decelerate_after * step_per_mm,
   p.max_rate_sqr⟩

/-- Profile classification following the claim's seven-case table
word-for-word (spec §4.1), for comparison with the source embedding:
Cruise-only, Cruise-decel, Accel-cruise, Trapezoid, Triangle,
Decel-only, Accel-only, with `intersection = ½·(L + (v₀²−vₑ²)/2a)`
and the final `step_per_mm` scaling. -/
def profileClassifySpec (L v0sq vnsq vesq a spm : ℚ) : Profile :=
  let intersection := (1/2) * (L + (v0sq - vesq)/(2*a))
  let decel := (vnsq - vesq)/(2*a)
  if v0sq = vnsq ∧ vesq = vnsq then
    ⟨L * spm, 0, vnsq⟩
  else if v0sq = vnsq ∧ vesq < vnsq then
    ⟨L * spm, decel * spm, vnsq⟩
  else if v0sq < vnsq ∧ vesq = vnsq then
    ⟨(L - (vnsq - v0sq)/(2*a)) * spm, 0, vnsq⟩
  else if 0 < intersection ∧ intersection < L ∧ decel < intersection then
    ⟨(L - (vnsq - v0sq)/(2*a)) * spm, decel * spm, vnsq⟩
  else if 0 < intersection ∧ intersection < L ∧ intersection ≤ decel then
    ⟨(L - intersection) * spm, intersection * spm, 2*a*intersection + vesq⟩
  else if L ≤ intersection then
    ⟨L * spm, L * spm, v0sq⟩
  else
    ⟨0, 0, vesq⟩

/-- C6: for every fresh planner block satisfying the planner contract
(`0 < millimeters`, `entry_speed_sqr ≤ nominal_speed_sqr`,
`exit_speed_sqr ≤ nominal_speed_sqr`), the source's profile
classification equals the seven-case table of spec §4.1 (with all
three outputs scaled by `step_per_mm`; `maximum_rate` compared via its
squared value, see `Profile`). -/
theorem C6_profile_classification (b : PlanBlock) (exit_speed_sqr step_per_mm : ℚ)
    (hL : 0 < b.millimeters)
    (hv0 : b.entry_speed_sqr ≤ b.nominal_speed_sqr)
    (hve : exit_speed_sqr ≤ b.nominal_speed_sqr) :
    profileClassify b exit_speed_sqr step_per_mm
      = profileClassifySpec b.millimeters b.entry_speed_sqr b.nominal_speed_sqr
          exit_speed_sqr b.acceleration step_per_mm := by
  simp only [profileClassify, profileClassifySpec]
  by_cases h1 : b.entry_speed_sqr = b.nominal_speed_sqr
  · by_cases h2 : exit_speed_sqr = b.nominal_speed_sqr
    · rw [if_pos h1, if_pos h2, if_pos ⟨h1, h2⟩]
      simp
    · have hlt : exit_speed_sqr < b.nominal_speed_sqr := hve.lt_of_ne h2
      have c1 : ¬ (b.entry_speed_sqr = b.nominal_speed_sqr
          ∧ exit_speed_sqr = b.nominal_speed_sqr) := fun h => h2 h.2
      rw [if_pos h1, if_neg h2, if_neg c1, if_pos ⟨h1, hlt⟩]
  · have hlt0 : b.entry_speed_sqr < b.nominal_speed_sqr := hv0.lt_of_ne h1
    have c1 : ¬ (b.entry_speed_sqr = b.nominal_speed_sqr
        ∧ exit_speed_sqr = b.nominal_speed_sqr) := fun h => h1 h.1
    have c2 : ¬ (b.entry_speed_sqr = b.nominal_speed_sqr
        ∧ exit_speed_sqr < b.nominal_speed_sqr) := fun h => h1 h.1
    by_cases h2 : exit_speed_sqr = b.nominal_speed_sqr
    · rw [if_neg h1, if_pos h2, if_neg c1, if_neg c2, if_pos ⟨hlt0, h2⟩]
      simp
    · have c3 : ¬ (b.entry_speed_sqr < b.nominal_speed_sqr
          ∧ exit_speed_sqr = b.nominal_speed_sqr) := fun h => h2 h.2
      by_cases hI : 0 < (1/2) * (b.millimeters
          + (b.entry_speed_sqr - exit_speed_sqr)/(2*b.acceleration))
      · by_cases hIL : (1/2) * (b.millimeters
            + (b.entry_speed_sqr - exit_speed_sqr)/(2*b.acceleration))
            < b.millimeters
        · by_cases hD : (b.nominal_speed_sqr - exit_speed_sqr)/(2*b.acceleration)
              < (1/2) * (b.millimeters
                + (b.entry_speed_sqr - exit_speed_sqr)/(2*b.acceleration))
          · rw [if_neg h1, if_neg h2, if_pos hI, if_pos hIL, if_pos hD,
              if_neg c1, if_neg c2, if_neg c3, if_pos ⟨hI, hIL, hD⟩]
          · have hID := not_lt.mp hD
            have c4 : ¬ (0 < (1/2) * (b.millimeters
                + (b.entry_speed_sqr - exit_speed_sqr)/(2*b.acceleration))
                ∧ (1/2) * (b.millimeters
                  + (b.entry_speed_sqr - exit_speed_sqr)/(2*b.acceleration))
                  < b.millimeters
                ∧ (b.nominal_speed_sqr - exit_speed_sqr)/(2*b.acceleration)
                  < (1/2) * (b.millimeters
                    + (b.entry_speed_sqr - exit_speed_sqr)/(2*b.acceleration))) :=
              fun h => hD h.2.2
            rw [if_neg h1, if_neg h2, if_pos hI, if_pos hIL, if_neg hD,
              if_neg c1, if_neg c2, if_neg c3, if_neg c4, if_pos ⟨hI, hIL, hID⟩]
        · have hLI := not_lt.mp hIL
          have c4 : ¬ (0 < (1/2) * (b.millimeters
              + (b.entry_speed_sqr - exit_speed_sqr)/(2*b.acceleration))
              ∧ (1/2) * (b.millimeters
                + (b.entry_speed_sqr - exit_speed_sqr)/(2*b.acceleration))
                < b.millimeters
              ∧ (b.nominal_speed_sqr - exit_speed_sqr)/(2*b.acceleration)
                < (1/2) * (b.millimeters
                  + (b.entry_speed_sqr - exit_speed_sqr)/(2*b.acceleration))) :=
            fun h => hIL h.2.1
          have c5 : ¬ (0 < (1/2) * (b.millimeters
              + (b.entry_speed_sqr - exit_speed_sqr)/(2*b.acceleration))
              ∧ (1/2) * (b.millimeters
                + (b.entry_speed_sqr - exit_speed_sqr)/(2*b.acceleration))
                < b.millimeters
              ∧ (1/2) * (b.millimeters
                  + (b.entry_speed_sqr - exit_speed_sqr)/(2*b.acceleration))
                ≤ (b.nominal_speed_sqr - exit_speed_sqr)/(2*b.acceleration)) :=
            fun h => hIL h.2.1
          rw [if_neg h1, if_neg h2, if_pos hI, if_neg hIL,
            if_neg c1, if_neg c2, if_neg c3, if_neg c4, if_neg c5, if_pos hLI]
      · have hI0 := not_lt.mp hI
        have c4 : ¬ (0 < (1/2) * (b.millimeters
            + (b.entry_speed_sqr - exit_speed_sqr)/(2*b.acceleration))
            ∧ (1/2) * (b.millimeters
              + (b.entry_speed_sqr - exit_speed_sqr)/(2*b.acceleration))
              < b.millimeters
            ∧ (b.nominal_speed_sqr - exit_speed_sqr)/(2*b.acceleration)
              < (1/2) * (b.millimeters
                + (b.entry_speed_sqr - exit_speed_sqr)/(2*b.acceleration))) :=
          fun h => hI h.1
        have c5 : ¬ (0 < (1/2) * (b.millimeters
            + (b.entry_speed_sqr - exit_speed_sqr)/(2*b.acceleration))
            ∧ (1/2) * (b.millimeters
              + (b.entry_speed_sqr - exit_speed_sqr)/(2*b.acceleration))
              < b.millimeters
            ∧ (1/2) * (b.millimeters
                + (b.entry_speed_sqr - exit_speed_sqr)/(2*b.acceleration))
              ≤ (b.nominal_speed_sqr - exit_speed_sqr)/(2*b.acceleration)) :=
          fun h => hI h.1
        have c6 : ¬ (b.millimeters ≤ (1/2) * (b.millimeters
            + (b.entry_speed_sqr - exit_speed_sqr)/(2*b.acceleration))) := by
          rw [not_le]
          linarith
        rw [if_neg h1, if_neg h2, if_neg hI,
          if_neg c1, if_neg c2, if_neg c3, if_neg c4, if_neg c5, if_neg c6]
        simp

/-- Witness for C6 at the symmetric trapezoid of spec scenario S2:
`L = 30`, `v₀² = 0`, `vₙ² = 40000`, `vₑ² = 0`, `a = 100`,
`step_per_mm = 10`. -/
theorem C6_profile_classification_witness :
    profileClassify ⟨300, 200, 100, 300, false, false, false, 30, 0, 40000, 100⟩ 0 10
      = profileClassifySpec 30 0 40000 0 100 10 :=
  C6_profile_classification ⟨300, 200, 100, 300, false, false, false, 30, 0, 40000, 100⟩
    0 10 (by norm_num) (by norm_num) (by norm_num)

end GrblStepper
